import Mathlib

/-!
Verification of the `trace.rs` ray tracer (`src/main.rs`).

The Rust source works on `f32`; we embed it with real numbers, the standard
idealization: `f32` operations become the corresponding exact real operations,
`f32::sqrt` becomes `Real.sqrt`. The one genuinely integral operation,
the `as u8` cast in `Vector3D::rgb`, is modelled exactly: a Rust float-to-int
`as` cast rounds toward zero and saturates to the target range
(here `[0, 255]`; this is the defined behavior of `as` casts from floats).

Every definition mirrors the corresponding Rust item; names follow the source
(`Sphere.intersects`, `Vector3D.rgb`, ...). The per-pixel sphere loop of `main`
is `renderPixel`, the per-light loop is `lightPower`, the whole double pixel
loop is `renderImage`, and the literal scene of `main` is `referenceSpheres`
/ `referenceLights`.
-/

/-- The `struct Vector3D { x, y, z: f32 }`. -/
structure Vector3D where
  x : ℝ
  y : ℝ
  z : ℝ

/-- The `struct Light { direction: Vector3D, intensity: f32 }`. -/
structure Light where
  direction : Vector3D
  intensity : ℝ

/-- The `struct Sphere { position, color: Vector3D, radius: f32 }`. -/
structure Sphere where
  position : Vector3D
  color : Vector3D
  radius : ℝ

/-- The `struct Ray { origin, direction: Vector3D }`. -/
structure Ray where
  origin : Vector3D
  direction : Vector3D

namespace Vector3D

/-- The `fn mul(&self, scalar: &f32) -> Vector3D`. -/
def mul (v : Vector3D) (scalar : ℝ) : Vector3D :=
  ⟨v.x * scalar, v.y * scalar, v.z * scalar⟩

/-- The `fn dot(&self, other: &Vector3D) -> f32`. -/
def dot (v other : Vector3D) : ℝ :=
  v.x * other.x + v.y * other.y + v.z * other.z

/-- The `fn add(&self, other: &Vector3D) -> Vector3D`. -/
def add (v other : Vector3D) : Vector3D :=
  ⟨v.x + other.x, v.y + other.y, v.z + other.z⟩

/-- The `fn sub(&self, other: &Vector3D) -> Vector3D`. -/
def sub (v other : Vector3D) : Vector3D :=
  ⟨v.x - other.x, v.y - other.y, v.z - other.z⟩

/-- The `fn magnitude(&self) -> f32 { self.dot(self).sqrt() }`. -/
noncomputable def magnitude (v : Vector3D) : ℝ :=
  Real.sqrt (v.dot v)

/-- The `fn normalize(&self) -> Vector3D`: scale by `1.0 / magnitude`. -/
noncomputable def normalize (v : Vector3D) : Vector3D :=
  let s := 1 / v.magnitude
  ⟨v.x * s, v.y * s, v.z * s⟩

/-- The `fn clamp(&self, min, max)`: per component `self.c.min(max).max(min)`. -/
def clamp (v : Vector3D) (lo hi : ℝ) : Vector3D :=
  ⟨max (min v.x hi) lo, max (min v.y hi) lo, max (min v.z hi) lo⟩

end Vector3D

/-- Rust `expr as u8` for a float `expr`: round toward zero, saturating to
`[0, 255]`. On a non-negative real, rounding toward zero is `Int.floor`; on a
negative real the result saturates to `0`, which `Int.toNat` produces. -/
noncomputable def f32AsU8 (r : ℝ) : ℕ :=
  (min ⌊r⌋ 255).toNat

/-- The `fn rgb(&self) -> [u8; 3]`: `[(x*255.0) as u8, (y*255.0) as u8, (z*255.0) as u8]`. -/
noncomputable def Vector3D.rgb (v : Vector3D) : ℕ × ℕ × ℕ :=
  (f32AsU8 (v.x * 255), f32AsU8 (v.y * 255), f32AsU8 (v.z * 255))

namespace Sphere

/-- The `fn intersects(&self, ray: &Ray) -> Option<f32>` (src/main.rs lines 74-97). -/
noncomputable def intersects (s : Sphere) (ray : Ray) : Option ℝ :=
  let oc := s.position.sub ray.origin
  let tca := oc.dot ray.direction
  if tca < 0 then none
  else
    let l2oc := oc.dot oc
    let sr2 := s.radius * s.radius
    let d2 := l2oc - tca * tca
    if d2 > sr2 then none
    else
      let thc := Real.sqrt (sr2 - d2)
      let t0 := tca - thc
      let t1 := tca + thc
      if t0 < 0 ∧ t1 < 0 then none
      else if t0 < 0 then some t1
      else if t1 < 0 then some t0
      else some (if t0 < t1 then t0 else t1)

/-- The `fn surface_normal(&self, hit_point: &Vector3D) -> Vector3D`. -/
noncomputable def surfaceNormal (s : Sphere) (hitPoint : Vector3D) : Vector3D :=
  (hitPoint.sub s.position).normalize

/-- The intermediate `tca` of `intersects`: `oc.dot(&ray.direction)`. -/
def tca (s : Sphere) (ray : Ray) : ℝ :=
  (s.position.sub ray.origin).dot ray.direction

/-- The intermediate `l2oc` of `intersects`: `oc.dot(&oc)`. -/
def l2oc (s : Sphere) (ray : Ray) : ℝ :=
  (s.position.sub ray.origin).dot (s.position.sub ray.origin)

/-- The intermediate `d2` of `intersects`: `l2oc - tca * tca`. -/
def d2 (s : Sphere) (ray : Ray) : ℝ :=
  s.l2oc ray - s.tca ray * s.tca ray

/-- The intermediate `thc` of `intersects`: `(sr2 - d2).sqrt()`. -/
noncomputable def thc (s : Sphere) (ray : Ray) : ℝ :=
  Real.sqrt (s.radius * s.radius - s.d2 ray)

/-- The candidate root `t0 = tca - thc` of `intersects`. -/
noncomputable def t0 (s : Sphere) (ray : Ray) : ℝ :=
  s.tca ray - s.thc ray

/-- The candidate root `t1 = tca + thc` of `intersects`. -/
noncomputable def t1 (s : Sphere) (ray : Ray) : ℝ :=
  s.tca ray + s.thc ray

end Sphere

/-! ## The shading pipeline of `main` (src/main.rs lines 157-199) -/

/-- The per-light `light_intensity` (lines 182-185): the sum over all spheres
of `light.intensity` when the sphere misses the shadow ray, `0.0` otherwise. -/
noncomputable def lightIntensity (spheres : List Sphere) (light : Light)
    (shadowRay : Ray) : ℝ :=
  (spheres.map fun s => if (s.intersects shadowRay).isNone then light.intensity else 0).sum

/-- One iteration of the light loop body (lines 174-188): build `light_dir`
and the shadow ray from `hit_point`, then the summand added to `light_power`:
`normal.dot(&light_dir).max(0.0) * light_intensity`. -/
noncomputable def lightContribution (spheres : List Sphere) (hitPoint normal : Vector3D)
    (light : Light) : ℝ :=
  let lightDir := (light.direction.normalize).mul (-1)
  let shadowRay : Ray := ⟨hitPoint, lightDir⟩
  max (normal.dot lightDir) 0 * lightIntensity spheres light shadowRay

/-- The accumulated `light_power` over the light loop (lines 173-188). -/
noncomputable def lightPower (spheres : List Sphere) (lights : List Light)
    (hitPoint normal : Vector3D) : ℝ :=
  lights.foldl (fun acc light => acc + lightContribution spheres hitPoint normal light) 0

/-- The pixel written on a hit (lines 170-191): `hit_point`, `normal`, then
`sphere.color.mul(&light_power).clamp(0.0, 1.0).rgb()`. -/
noncomputable def shadePixel (spheres : List Sphere) (lights : List Light)
    (ray : Ray) (sphere : Sphere) (distance : ℝ) : ℕ × ℕ × ℕ :=
  let hitPoint := ray.origin.add (ray.direction.mul distance)
  let normal := sphere.surfaceNormal hitPoint
  ((sphere.color.mul (lightPower spheres lights hitPoint normal)).clamp 0 1).rgb

/-- One iteration of the sphere loop body (lines 166-196): on `Some(distance)`
with `distance >= 0.0` overwrite the pixel, otherwise keep it. -/
noncomputable def spherePass (spheres : List Sphere) (lights : List Light)
    (ray : Ray) (pixel : ℕ × ℕ × ℕ) (sphere : Sphere) : ℕ × ℕ × ℕ :=
  match sphere.intersects ray with
  | some distance =>
      if 0 ≤ distance then shadePixel spheres lights ray sphere distance else pixel
  | none => pixel

/-- The full sphere loop for one pixel, starting from `[0, 0, 0]` (line 159). -/
noncomputable def renderPixel (spheres : List Sphere) (lights : List Light)
    (ray : Ray) : ℕ × ℕ × ℕ :=
  spheres.foldl (spherePass spheres lights ray) (0, 0, 0)

/-- The vector handed to `normalize` for the primary ray of pixel `(x, y)`
(lines 161-164): `(rx, ry, -3.0)` with
`rx = (((x + 0.5) / F_WIDTH) * 2.0 - 1.0) * ASPECT` and
`ry = 1.0 - ((y + 0.5) / F_HEIGHT) * 2.0`. -/
noncomputable def rayDirInput (w h x y : ℕ) : Vector3D :=
  let fw : ℝ := (w : ℝ)
  let fh : ℝ := (h : ℝ)
  let aspect : ℝ := fw / fh
  let rx : ℝ := (((x + 0.5) / fw) * 2 - 1) * aspect
  let ry : ℝ := 1 - ((y + 0.5) / fh) * 2
  ⟨rx, ry, -3⟩

/-- The primary ray of pixel `(x, y)`: origin `(0,0,0)` (line 142), direction
the normalized `rayDirInput` (line 164). -/
noncomputable def primaryRay (w h x y : ℕ) : Ray :=
  ⟨⟨0, 0, 0⟩, (rayDirInput w h x y).normalize⟩

/-- The three bytes `pixels.extend_from_slice(&pixel)` appends (line 197). -/
def pixelBytes (p : ℕ × ℕ × ℕ) : List ℕ :=
  [p.1, p.2.1, p.2.2]

/-- The whole pixel buffer: rows top to bottom (`y`), pixels left to right
(`x`), three bytes per pixel (lines 157-199). -/
noncomputable def renderImage (spheres : List Sphere) (lights : List Light)
    (w h : ℕ) : List ℕ :=
  (List.range h).flatMap fun y =>
    (List.range w).flatMap fun x =>
      pixelBytes (renderPixel spheres lights (primaryRay w h x y))

/-- The PPM header `format_args!("P6 \x7b\x7d \x7b\x7d 255\n", WIDTH, HEIGHT)`
written before the pixel bytes (line 202). -/
def ppmHeader (w h : ℕ) : String :=
  "P6 " ++ toString w ++ " " ++ toString h ++ " 255\n"

/-- The sphere literals of `main` (lines 113-139). -/
def referenceSpheres : List Sphere :=
  [ ⟨⟨0, 0, -5⟩, ⟨1, 0, 0⟩, 1⟩,
    ⟨⟨0.5, 0.1, -3⟩, ⟨0, 0, 1⟩, 0.1⟩,
    ⟨⟨-0.5, 0.1, -3⟩, ⟨0, 1, 0⟩, 0.1⟩,
    ⟨⟨0, 0.5, -3⟩, ⟨1, 1, 1⟩, 0.1⟩,
    ⟨⟨0, -0.5, -3⟩, ⟨0.3, 0.3, 0.3⟩, 0.1⟩ ]

/-- The light literals of `main` (lines 146-155). -/
def referenceLights : List Light :=
  [ ⟨⟨0, 0, -4⟩, 0.1⟩,
    ⟨⟨0, -0.5, -4⟩, 0.1⟩ ]

/-- The bytes of the output file: the formatted header (line 202) followed
immediately by the raw pixel bytes (line 203), one code point per byte. -/
noncomputable def outputFile : List ℕ :=
  ((ppmHeader 800 600).data.map Char.toNat) ++
    renderImage referenceSpheres referenceLights 800 600

/-! ## Definitions taken from the specification wording, for comparison -/

/-- Modelled from the spec wording (section 4.4 step 6): the light's
contribution is `0` when any sphere in the scene reports an intersection with
the shadow ray, and exactly `light.intensity` otherwise. -/
noncomputable def specLightIntensity (spheres : List Sphere) (light : Light)
    (shadowRay : Ray) : ℝ :=
  if spheres.any fun s => (s.intersects shadowRay).isSome then 0
  else light.intensity

/-- Modelled from the claim wording for the intersection routine: early exits
on `tca < 0` and `d2 > radius^2`, then the four-way selection with
`min(t0, t1)` in the final branch. -/
noncomputable def specIntersects (s : Sphere) (ray : Ray) : Option ℝ :=
  let oc := s.position.sub ray.origin
  let tca := oc.dot ray.direction
  if tca < 0 then none
  else
    let d2 := oc.dot oc - tca ^ 2
    if d2 > s.radius ^ 2 then none
    else
      let thc := Real.sqrt (s.radius ^ 2 - d2)
      let t0 := tca - thc
      let t1 := tca + thc
      if t0 < 0 ∧ t1 < 0 then none
      else if t0 < 0 then some t1
      else if t1 < 0 then some t0
      else some (min t0 t1)

/-- Modelled from the claim wording for the byte conversion: `floor(c * 255)`
truncated to 8 bits with wraparound (an unchecked cast reducing mod 256). -/
noncomputable def specWrapByte (c : ℝ) : ℕ :=
  (⌊c * 255⌋ % 256).toNat

/-- The intersection routine with the two branches the code can never take
removed: no `t0 < 0 ∧ t1 < 0` case and no `t1 < 0` case. -/
noncomputable def reachableIntersects (s : Sphere) (ray : Ray) : Option ℝ :=
  if s.tca ray < 0 then none
  else if s.d2 ray > s.radius * s.radius then none
  else if s.t0 ray < 0 then some (s.t1 ray)
  else some (min (s.t0 ray) (s.t1 ray))

/-! ## Concrete scenes used to evaluate the definitions -/

/-- A unit sphere two units in front of the origin along `-z`. -/
def wSphereA : Sphere := ⟨⟨0, 0, -2⟩, ⟨1, 0, 0⟩, 1⟩

/-- A unit sphere three units in front of the origin along `-z`. -/
def wSphereB : Sphere := ⟨⟨0, 0, -3⟩, ⟨0, 0, 1⟩, 1⟩

/-- A unit ray from the origin along `-z`, toward both test spheres. -/
def wRay : Ray := ⟨⟨0, 0, 0⟩, ⟨0, 0, -1⟩⟩

/-- A unit ray from the origin along `+z`, away from both test spheres. -/
def wAwayRay : Ray := ⟨⟨0, 0, 0⟩, ⟨0, 0, 1⟩⟩

/-- A test light of intensity `1`. -/
def wLight : Light := ⟨⟨0, 0, -4⟩, 1⟩

/-! ## Helper lemmas -/

/-- The `intersects` restated through the named intermediates. -/
theorem Sphere.intersects_eq (s : Sphere) (ray : Ray) :
    s.intersects ray =
      if s.tca ray < 0 then none
      else if s.d2 ray > s.radius * s.radius then none
      else if s.t0 ray < 0 ∧ s.t1 ray < 0 then none
      else if s.t0 ray < 0 then some (s.t1 ray)
      else if s.t1 ray < 0 then some (s.t0 ray)
      else some (if s.t0 ray < s.t1 ray then s.t0 ray else s.t1 ray) := by
  rfl

/-- Any distance `intersects` returns is one of the two candidate roots. -/
theorem Sphere.intersects_mem (s : Sphere) (ray : Ray) (d : ℝ)
    (hd : s.intersects ray = some d) : d = s.t0 ray ∨ d = s.t1 ray := by
  rw [Sphere.intersects_eq] at hd
  split_ifs at hd with h1 h2 h3 h4 h5 <;> simp_all

/-- Any distance `intersects` returns is non-negative. -/
theorem Sphere.intersects_nonneg (s : Sphere) (ray : Ray) (d : ℝ)
    (hd : s.intersects ray = some d) : 0 ≤ d := by
  rw [Sphere.intersects_eq] at hd
  split_ifs at hd with h1 h2 h3 h4 h5 <;> simp_all

/-- If `intersects` hits, the `d2 > sr2` rejection did not fire. -/
theorem Sphere.intersects_d2_le (s : Sphere) (ray : Ray) (d : ℝ)
    (hd : s.intersects ray = some d) : s.d2 ray ≤ s.radius * s.radius := by
  rw [Sphere.intersects_eq] at hd
  split_ifs at hd with h1 h2 h3 h4 h5 <;> simp_all

/-- If `intersects` hits, the `tca < 0` rejection did not fire. -/
theorem Sphere.intersects_tca_nonneg (s : Sphere) (ray : Ray) (d : ℝ)
    (hd : s.intersects ray = some d) : 0 ≤ s.tca ray := by
  rw [Sphere.intersects_eq] at hd
  split_ifs at hd with h1 h2 h3 h4 h5 <;> simp_all

/-- The `thc` squared recovers `sr2 - d2` once the miss test has passed. -/
theorem Sphere.thc_mul_self (s : Sphere) (ray : Ray)
    (h : s.d2 ray ≤ s.radius * s.radius) :
    s.thc ray * s.thc ray = s.radius * s.radius - s.d2 ray :=
  Real.mul_self_sqrt (by linarith)

/-- The `thc` is a real square root, hence non-negative. -/
theorem Sphere.thc_nonneg (s : Sphere) (ray : Ray) : 0 ≤ s.thc ray :=
  Real.sqrt_nonneg _

/-- A dot product of a vector with itself is a sum of squares. -/
theorem Vector3D.dot_self_nonneg (v : Vector3D) : 0 ≤ v.dot v := by
  unfold Vector3D.dot
  nlinarith [sq_nonneg v.x, sq_nonneg v.y, sq_nonneg v.z]

/-- A vector with positive self-dot-product has non-zero magnitude. -/
theorem Vector3D.magnitude_ne_zero (v : Vector3D) (h : 0 < v.dot v) :
    v.magnitude ≠ 0 :=
  Real.sqrt_ne_zero'.mpr h

/-- Normalizing a vector with positive self-dot-product yields self-dot 1. -/
theorem Vector3D.dot_normalize_self (v : Vector3D) (h : 0 < v.dot v) :
    (v.normalize).dot (v.normalize) = 1 := by
  have hsq : Real.sqrt (v.dot v) * Real.sqrt (v.dot v) = v.dot v :=
    Real.mul_self_sqrt (le_of_lt h)
  have hne : Real.sqrt (v.dot v) ≠ 0 := Real.sqrt_ne_zero'.mpr h
  simp only [Vector3D.normalize, Vector3D.magnitude, Vector3D.dot] at hsq hne ⊢
  field_simp
  linear_combination -hsq

/-- Normalizing a vector with positive self-dot-product yields magnitude 1. -/
theorem Vector3D.magnitude_normalize (v : Vector3D) (h : 0 < v.dot v) :
    (v.normalize).magnitude = 1 := by
  unfold Vector3D.magnitude
  rw [Vector3D.dot_normalize_self v h, Real.sqrt_one]

/-- For a unit-direction ray, a point at a distance returned by `intersects`
lies at distance `radius` from the sphere center (squared form). -/
theorem Sphere.hit_dist_sq (s : Sphere) (ray : Ray) (d : ℝ)
    (hunit : ray.direction.dot ray.direction = 1)
    (hd : s.intersects ray = some d) :
    ((ray.origin.add (ray.direction.mul d)).sub s.position).dot
      ((ray.origin.add (ray.direction.mul d)).sub s.position) =
      s.radius * s.radius := by
  have hthc := Sphere.thc_mul_self s ray (Sphere.intersects_d2_le s ray d hd)
  have key : ((ray.origin.add (ray.direction.mul d)).sub s.position).dot
      ((ray.origin.add (ray.direction.mul d)).sub s.position) =
      d * d * (ray.direction.dot ray.direction) - 2 * d * s.tca ray + s.l2oc ray := by
    simp only [Vector3D.add, Vector3D.sub, Vector3D.mul, Vector3D.dot,
      Sphere.tca, Sphere.l2oc]
    ring
  rw [key, hunit]
  unfold Sphere.d2 at hthc
  rcases Sphere.intersects_mem s ray d hd with h | h <;> rw [h] <;>
    simp only [Sphere.t0, Sphere.t1] <;> linear_combination hthc

/-- Spheres that all miss the ray leave the running pixel unchanged. -/
theorem foldl_spherePass_miss (spheres : List Sphere) (lights : List Light)
    (ray : Ray) (l : List Sphere) (hmiss : ∀ s ∈ l, s.intersects ray = none)
    (p : ℕ × ℕ × ℕ) : l.foldl (spherePass spheres lights ray) p = p := by
  induction l generalizing p with
  | nil => rfl
  | cons a t ih =>
    have ha := hmiss a (List.mem_cons_self a t)
    rw [List.foldl_cons]
    have hstep : spherePass spheres lights ray p a = p := by
      unfold spherePass
      rw [ha]
    rw [hstep]
    exact ih (fun s hs => hmiss s (List.mem_cons_of_mem a hs)) p

/-- A left fold that only adds summands is the sum of the mapped list. -/
theorem foldl_add_eq_sum {α : Type} (f : α → ℝ) (l : List α) (a : ℝ) :
    l.foldl (fun acc x => acc + f x) a = a + (l.map f).sum := by
  induction l generalizing a with
  | nil => simp
  | cons b t ih =>
    rw [List.foldl_cons, ih, List.map_cons, List.sum_cons]
    ring

/-- A `flatMap` whose blocks all have length `c` has length `l.length * c`. -/
theorem length_flatMap_const {α : Type} (f : α → List ℕ) (c : ℕ)
    (hf : ∀ a, (f a).length = c) (l : List α) :
    (l.flatMap f).length = l.length * c := by
  induction l with
  | nil => simp
  | cons a t ih =>
    rw [List.flatMap_cons, List.length_append, ih, hf a, List.length_cons]
    ring

/-- A sphere loop iteration keeps the pixel when the sphere misses. -/
theorem spherePass_none (spheres : List Sphere) (lights : List Light) (ray : Ray)
    (p : ℕ × ℕ × ℕ) (sphere : Sphere) (h : sphere.intersects ray = none) :
    spherePass spheres lights ray p sphere = p := by
  unfold spherePass
  rw [h]

/-- A sphere loop iteration overwrites the pixel on a non-negative hit. -/
theorem spherePass_some (spheres : List Sphere) (lights : List Light) (ray : Ray)
    (p : ℕ × ℕ × ℕ) (sphere : Sphere) (dist : ℝ)
    (h : sphere.intersects ray = some dist) (hnn : 0 ≤ dist) :
    spherePass spheres lights ray p sphere =
      shadePixel spheres lights ray sphere dist := by
  unfold spherePass
  rw [h]
  exact if_pos hnn

/-- The `if a < b then a else b` is the minimum. -/
theorem ite_lt_eq_min (a b : ℝ) : (if a < b then a else b) = min a b := by
  rcases le_or_lt b a with h | h
  · rw [min_eq_right h, if_neg (not_lt.mpr h)]
  · rw [min_eq_left h.le, if_pos h]

/-- The `wSphereA` is hit by `wRay` at distance 1. -/
theorem wSphereA_hit : wSphereA.intersects wRay = some 1 := by
  simp only [Sphere.intersects, wSphereA, wRay, Vector3D.sub, Vector3D.dot]
  norm_num [Real.sqrt_one]

/-- The `wSphereB` is hit by `wRay` at distance 2. -/
theorem wSphereB_hit : wSphereB.intersects wRay = some 2 := by
  simp only [Sphere.intersects, wSphereB, wRay, Vector3D.sub, Vector3D.dot]
  norm_num [Real.sqrt_one]

/-- The `wSphereA` is missed by the ray pointing away from it. -/
theorem wSphereA_missAway : wSphereA.intersects wAwayRay = none := by
  simp only [Sphere.intersects, wSphereA, wAwayRay, Vector3D.sub, Vector3D.dot]
  norm_num

/-- The `wSphereB` is missed by the ray pointing away from it. -/
theorem wSphereB_missAway : wSphereB.intersects wAwayRay = none := by
  simp only [Sphere.intersects, wSphereB, wAwayRay, Vector3D.sub, Vector3D.dot]
  norm_num

/-! ## Claim theorems -/

/-- Claim C2: at a pixel where two or more spheres are hit, the rendered pixel
equals the shaded color of the sphere occurring last in scene iteration order
among those hit, regardless of which hit sphere is geometrically nearer: the
sphere loop overwrites the pixel on every hit, so the last hit wins. -/
theorem renderPixel_last_hit_wins (spheres : List Sphere) (lights : List Light)
    (ray : Ray) (pre post : List Sphere) (s : Sphere) (d : ℝ)
    (heq : spheres = pre ++ s :: post)
    (hs : s.intersects ray = some d)
    (hpost : ∀ s2 ∈ post, s2.intersects ray = none) :
    renderPixel spheres lights ray = shadePixel spheres lights ray s d := by
  have hd0 : 0 ≤ d := Sphere.intersects_nonneg s ray d hs
  subst heq
  unfold renderPixel
  rw [List.foldl_append, List.foldl_cons,
    spherePass_some _ _ _ _ _ d hs hd0,
    foldl_spherePass_miss _ _ _ post hpost _]

/-- Witness for C2: in the scene `[wSphereA, wSphereB]` both spheres are hit
by `wRay` (at distances 1 and 2), and the pixel is `wSphereB`'s shade even
though `wSphereA` is nearer. -/
theorem renderPixel_last_hit_wins_witness :
    wSphereB.intersects wRay = some 2 ∧
      renderPixel [wSphereA, wSphereB] [wLight] wRay =
        shadePixel [wSphereA, wSphereB] [wLight] wRay wSphereB 2 := by
  refine ⟨wSphereB_hit, ?_⟩
  exact renderPixel_last_hit_wins [wSphereA, wSphereB] [wLight] wRay [wSphereA] []
    wSphereB 2 rfl wSphereB_hit (fun s2 hs2 => absurd hs2 (List.not_mem_nil s2))

/-- Claim C7: a pixel whose primary ray intersects no sphere keeps the default
black `(0, 0, 0)`; spheres reporting no intersection never modify it. -/
theorem renderPixel_background (spheres : List Sphere) (lights : List Light)
    (ray : Ray) (hmiss : ∀ s ∈ spheres, s.intersects ray = none) :
    renderPixel spheres lights ray = (0, 0, 0) := by
  unfold renderPixel
  exact foldl_spherePass_miss spheres lights ray spheres hmiss (0, 0, 0)

/-- Witness for C7: a ray pointing away from both test spheres renders the
black background. -/
theorem renderPixel_background_witness :
    renderPixel [wSphereA, wSphereB] [wLight] wAwayRay = (0, 0, 0) := by
  apply renderPixel_background
  intro s hs
  rcases List.mem_cons.mp hs with rfl | hs2
  · exact wSphereA_missAway
  · rcases List.mem_cons.mp hs2 with rfl | h
    · exact wSphereB_missAway
    · exact absurd h (List.not_mem_nil s)

/-- Claim C8: the accumulated `light_power` over a list of lights is the sum
of the `light_power` values each light would produce alone: lighting
superposes additively per light. -/
theorem lightPower_superposition (spheres : List Sphere)
    (hitPoint normal : Vector3D) (lights : List Light) :
    lightPower spheres lights hitPoint normal =
      (lights.map fun l => lightPower spheres [l] hitPoint normal).sum := by
  unfold lightPower
  rw [foldl_add_eq_sum, zero_add]
  congr 1
  apply List.map_congr_left
  intro l _
  rw [List.foldl_cons, List.foldl_nil, zero_add]

/-- The `specIntersects` restated through the named intermediates. -/
theorem specIntersects_eq (s : Sphere) (ray : Ray) :
    specIntersects s ray =
      if s.tca ray < 0 then none
      else if s.d2 ray > s.radius * s.radius then none
      else if s.t0 ray < 0 ∧ s.t1 ray < 0 then none
      else if s.t0 ray < 0 then some (s.t1 ray)
      else if s.t1 ray < 0 then some (s.t0 ray)
      else some (min (s.t0 ray) (s.t1 ray)) := by
  unfold specIntersects Sphere.t0 Sphere.t1 Sphere.thc Sphere.d2 Sphere.l2oc Sphere.tca
  simp only [pow_two]

/-- Claim C3: `intersects` follows exactly the claimed branch structure
(`tca < 0` rejection, `d2 > radius^2` rejection, then the four-way root
selection with `min`), and any returned distance is the nearest non-negative
candidate root, never negative. -/
theorem intersects_branch_spec (s : Sphere) (ray : Ray) :
    s.intersects ray = specIntersects s ray ∧
      ∀ d, s.intersects ray = some d →
        0 ≤ d ∧ (d = s.t0 ray ∨ d = s.t1 ray) ∧
          ∀ t, (t = s.t0 ray ∨ t = s.t1 ray) → 0 ≤ t → d ≤ t := by
  constructor
  · rw [Sphere.intersects_eq, specIntersects_eq, ite_lt_eq_min]
  · intro d hd
    refine ⟨Sphere.intersects_nonneg s ray d hd,
      Sphere.intersects_mem s ray d hd, ?_⟩
    intro t ht ht0
    rw [Sphere.intersects_eq] at hd
    split_ifs at hd with h1 h2 h3 h4 h5 h6
    · have he := Option.some.inj hd
      subst he
      rcases ht with rfl | rfl
      · exact absurd ht0 (not_le.mpr h4)
      · exact le_refl _
    · have he := Option.some.inj hd
      subst he
      rcases ht with rfl | rfl
      · exact le_refl _
      · exact absurd ht0 (not_le.mpr h5)
    · have he := Option.some.inj hd
      subst he
      rcases ht with rfl | rfl
      · exact le_refl _
      · exact le_of_lt h6
    · have he := Option.some.inj hd
      subst he
      rcases ht with rfl | rfl
      · exact le_of_not_lt h6
      · exact le_refl _

/-- Witness for C3: `wSphereB` is hit by `wRay` at distance 2, and the
returned distance is non-negative. -/
theorem intersects_branch_spec_witness :
    wSphereB.intersects wRay = some 2 ∧ (0 : ℝ) ≤ 2 := by
  have h := wSphereB_hit
  exact ⟨h, ((intersects_branch_spec wSphereB wRay).2 2 h).1⟩

/-- Claim C10: once the `tca < 0` early exit has not fired, the larger root
`t1 = tca + thc` is non-negative (as `thc` is a square root), so the
`t0 < 0 ∧ t1 < 0` and `t1 < 0` selection branches are unreachable and the
result is always none, `t1` (when `t0 < 0`), or `min(t0, t1)`. -/
theorem intersects_reachable_branches (s : Sphere) (ray : Ray)
    (h : 0 ≤ s.tca ray) :
    0 ≤ s.t1 ray ∧ s.intersects ray = reachableIntersects s ray := by
  have hthc := Sphere.thc_nonneg s ray
  have ht1 : 0 ≤ s.t1 ray := by unfold Sphere.t1; linarith
  refine ⟨ht1, ?_⟩
  have hc1 : ¬ s.tca ray < 0 := not_lt.mpr h
  have hc3 : ¬ (s.t0 ray < 0 ∧ s.t1 ray < 0) := fun hc => absurd hc.2 (not_lt.mpr ht1)
  have hc5 : ¬ s.t1 ray < 0 := not_lt.mpr ht1
  rw [Sphere.intersects_eq]
  unfold reachableIntersects
  rw [if_neg hc1, if_neg hc1]
  by_cases c2 : s.d2 ray > s.radius * s.radius
  · rw [if_pos c2, if_pos c2]
  · rw [if_neg c2, if_neg c2, if_neg hc3]
    by_cases c4 : s.t0 ray < 0
    · rw [if_pos c4, if_pos c4]
    · rw [if_neg c4, if_neg c4, if_neg hc5, ite_lt_eq_min]

/-- Witness for C10: `wRay` against `wSphereB` has `tca = 3 ≥ 0`, and the
larger root is non-negative. -/
theorem intersects_reachable_branches_witness :
    0 ≤ wSphereB.tca wRay ∧ 0 ≤ wSphereB.t1 wRay := by
  have h : 0 ≤ wSphereB.tca wRay := by
    simp only [Sphere.tca, wSphereB, wRay, Vector3D.sub, Vector3D.dot]
    norm_num
  exact ⟨h, (intersects_reachable_branches wSphereB wRay h).1⟩

/-- Counterexample to claim C1: in the two-sphere scene `[wSphereA, wSphereB]`
with a shadow ray missing both spheres and a light of intensity 1, the code
computes the per-light factor as the SUM over spheres — here `1 + 1 = 2` —
while the claim says it is exactly `light.intensity = 1` (or 0). -/
theorem lightIntensity_not_spec :
    lightIntensity [wSphereA, wSphereB] wLight wAwayRay = 2 ∧
      specLightIntensity [wSphereA, wSphereB] wLight wAwayRay = 1 ∧
      lightIntensity [wSphereA, wSphereB] wLight wAwayRay ≠
        specLightIntensity [wSphereA, wSphereB] wLight wAwayRay := by
  have hA := wSphereA_missAway
  have hB := wSphereB_missAway
  have h1 : lightIntensity [wSphereA, wSphereB] wLight wAwayRay = 2 := by
    unfold lightIntensity
    rw [List.map_cons, List.map_cons, List.map_nil, hA, hB]
    norm_num [wLight]
  have h2 : specLightIntensity [wSphereA, wSphereB] wLight wAwayRay = 1 := by
    unfold specLightIntensity
    rw [List.any_cons, List.any_cons, List.any_nil, hA, hB]
    norm_num [wLight]
  refine ⟨h1, h2, ?_⟩
  rw [h1, h2]
  norm_num

/-- Claim C1 amended: a light's per-point factor is `light.intensity` times
the number of spheres that report NO intersection with the shadow ray — so it
is zero when every sphere occludes, but `n * intensity` (not `intensity`)
when `n` spheres fail to occlude. -/
theorem lightIntensity_counts_misses (spheres : List Sphere) (light : Light)
    (shadowRay : Ray) :
    lightIntensity spheres light shadowRay =
      (spheres.countP fun s => (s.intersects shadowRay).isNone) * light.intensity := by
  induction spheres with
  | nil => simp [lightIntensity]
  | cons a t ih =>
    simp only [lightIntensity, List.map_cons, List.sum_cons] at ih ⊢
    rw [ih, List.countP_cons]
    by_cases h : (a.intersects shadowRay).isNone
    · simp only [h, if_true]
      push_cast
      ring
    · simp only [h, if_false]
      push_cast [h]
      ring

/-- The `f32AsU8` characterized: negative inputs give 0, inputs at least 255 give
255, and in between the result is the floor — saturation, not wraparound. -/
theorem f32AsU8_char (r : ℝ) :
    f32AsU8 r = if r < 0 then 0 else if (255:ℝ) ≤ r then 255 else ⌊r⌋.toNat := by
  unfold f32AsU8
  split_ifs with h1 h2
  · have hf : ⌊r⌋ < 0 := by
      have := Int.floor_lt.mpr (show r < ((0:ℤ):ℝ) by push_cast; linarith)
      simpa using this
    exact Int.toNat_eq_zero.mpr (le_trans (min_le_left _ _) (le_of_lt hf))
  · have h255 : (255:ℤ) ≤ ⌊r⌋ := Int.le_floor.mpr (by push_cast; linarith)
    rw [min_eq_right h255]
    rfl
  · have h3 : ⌊r⌋ < 255 := Int.floor_lt.mpr (by push_cast; linarith)
    rw [min_eq_left (le_of_lt h3)]

/-- Counterexample to claim C4: the vector `(2, 0, 0)` converts to
`(255, 0, 0)` — the out-of-range first component SATURATES to 255 — whereas
the claimed wraparound semantics would give `510 mod 256 = 254`. -/
theorem rgb_wrap_counterexample :
    (Vector3D.mk 2 0 0).rgb = (255, 0, 0) ∧ specWrapByte 2 = 254 := by
  constructor
  · unfold Vector3D.rgb f32AsU8
    norm_num
    rfl
  · unfold specWrapByte
    norm_num
    rfl

/-- Claim C4 amended: each component is independently mapped through
`floor(component * 255)` and then a SATURATING (not wrapping) cast to
`[0, 255]`: negative products give 0, products at least 255 give 255, and no
rounding happens in between — matching Rust's defined float-to-int `as`
semantics. -/
theorem rgb_floor_saturating (v : Vector3D) :
    v.rgb =
      ((if v.x * 255 < 0 then 0 else if (255:ℝ) ≤ v.x * 255 then 255 else ⌊v.x * 255⌋.toNat),
       (if v.y * 255 < 0 then 0 else if (255:ℝ) ≤ v.y * 255 then 255 else ⌊v.y * 255⌋.toNat),
       (if v.z * 255 < 0 then 0 else if (255:ℝ) ≤ v.z * 255 then 255 else ⌊v.z * 255⌋.toNat)) := by
  unfold Vector3D.rgb
  rw [f32AsU8_char, f32AsU8_char, f32AsU8_char]

/-- A sphere loop iteration keeps the pixel on a negative hit distance. -/
theorem spherePass_negDist (spheres : List Sphere) (lights : List Light)
    (ray : Ray) (p : ℕ × ℕ × ℕ) (sphere : Sphere) (dist : ℝ)
    (h : sphere.intersects ray = some dist) (hneg : ¬ 0 ≤ dist) :
    spherePass spheres lights ray p sphere = p := by
  unfold spherePass
  rw [h]
  exact if_neg hneg

/-- Claim C5: every rendered pixel is either the untouched black background
or, for some sphere hit at some non-negative distance, the sphere's color
scaled by the accumulated light power, clamped componentwise to `[0, 1]`, and
only then converted to a byte color — the clamp precedes the byte cast. -/
theorem renderPixel_clamp_before_rgb (spheres : List Sphere)
    (lights : List Light) (ray : Ray) :
    renderPixel spheres lights ray = (0, 0, 0) ∨
      ∃ s, s ∈ spheres ∧ ∃ d, s.intersects ray = some d ∧ 0 ≤ d ∧
        renderPixel spheres lights ray =
          ((s.color.mul (lightPower spheres lights
              (ray.origin.add (ray.direction.mul d))
              (s.surfaceNormal (ray.origin.add (ray.direction.mul d))))).clamp 0 1).rgb := by
  suffices h : ∀ (l : List Sphere), (∀ a ∈ l, a ∈ spheres) → ∀ p : ℕ × ℕ × ℕ,
      (p = (0, 0, 0) ∨ ∃ s, s ∈ spheres ∧ ∃ d, s.intersects ray = some d ∧ 0 ≤ d ∧
        p = ((s.color.mul (lightPower spheres lights
            (ray.origin.add (ray.direction.mul d))
            (s.surfaceNormal (ray.origin.add (ray.direction.mul d))))).clamp 0 1).rgb) →
      (l.foldl (spherePass spheres lights ray) p = (0, 0, 0) ∨
        ∃ s, s ∈ spheres ∧ ∃ d, s.intersects ray = some d ∧ 0 ≤ d ∧
          l.foldl (spherePass spheres lights ray) p =
            ((s.color.mul (lightPower spheres lights
                (ray.origin.add (ray.direction.mul d))
                (s.surfaceNormal (ray.origin.add (ray.direction.mul d))))).clamp 0 1).rgb) by
    exact h spheres (fun a ha => ha) (0, 0, 0) (Or.inl rfl)
  intro l
  induction l with
  | nil => intro hsub p hp; exact hp
  | cons a t ih =>
    intro hsub p hp
    rw [List.foldl_cons]
    apply ih (fun b hb => hsub b (List.mem_cons_of_mem a hb))
    cases hcase : a.intersects ray with
    | none =>
        rw [spherePass_none _ _ _ _ _ hcase]
        exact hp
    | some dist =>
        by_cases hnn : 0 ≤ dist
        · rw [spherePass_some _ _ _ _ _ dist hcase hnn]
          right
          exact ⟨a, hsub a (List.mem_cons_self a t), dist, hcase, hnn, rfl⟩
        · rw [spherePass_negDist _ _ _ _ _ dist hcase hnn]
          exact hp

/-- Claim C6: the byte buffer for the 800x600 render of the reference scene
has length exactly 800*600*3 = 1440000 (three bytes appended per pixel, rows
top to bottom, pixels left to right), and the emitted header is exactly the
ASCII string `P6 800 600 255` followed by a newline. -/
theorem output_buffer_length_and_header :
    (renderImage referenceSpheres referenceLights 800 600).length = 1440000 ∧
      ppmHeader 800 600 = "P6 800 600 255\n" ∧
      outputFile = ("P6 800 600 255\n".data.map Char.toNat) ++
        renderImage referenceSpheres referenceLights 800 600 := by
  refine ⟨?_, rfl, rfl⟩
  have hinner : ∀ y : ℕ, ((List.range 800).flatMap fun x =>
        pixelBytes (renderPixel referenceSpheres referenceLights
          (primaryRay 800 600 x y))).length = 2400 := by
      intro y
      rw [length_flatMap_const (fun x =>
        pixelBytes (renderPixel referenceSpheres referenceLights
          (primaryRay 800 600 x y))) 3 (fun x => rfl), List.length_range]
  unfold renderImage
  rw [length_flatMap_const _ 2400 hinner, List.length_range]

/-- The self-dot-product of a vector dominates the square of its z component. -/
theorem dot_self_ge_z_sq (v : Vector3D) : v.z * v.z ≤ v.dot v := by
  unfold Vector3D.dot
  nlinarith [mul_self_nonneg v.x, mul_self_nonneg v.y]

/-- Claim C9: every vector the reference render passes to `normalize` has
non-zero magnitude: the primary-ray input `(rx, ry, -3)` has magnitude at
least 3, both reference light directions are non-zero constants, every
reference sphere has positive radius, and the surface-normal input at a hit
of a unit-direction ray on a positive-radius sphere has magnitude exactly the
radius, hence non-zero. -/
theorem reference_scene_normalize_safe (x y : ℕ) (l : Light)
    (hl : l ∈ referenceLights) (s2 : Sphere) (hs2 : s2 ∈ referenceSpheres)
    (s : Sphere) (ray : Ray) (d : ℝ)
    (hunit : ray.direction.dot ray.direction = 1) (hr : 0 < s.radius)
    (hd : s.intersects ray = some d) :
    (rayDirInput 800 600 x y).magnitude ≠ 0 ∧
      3 ≤ (rayDirInput 800 600 x y).magnitude ∧
      (primaryRay 800 600 x y).direction.magnitude = 1 ∧
      l.direction.magnitude ≠ 0 ∧
      0 < s2.radius ∧
      ((ray.origin.add (ray.direction.mul d)).sub s.position).magnitude = s.radius ∧
      ((ray.origin.add (ray.direction.mul d)).sub s.position).magnitude ≠ 0 := by
  have hz : (rayDirInput 800 600 x y).z = -3 := rfl
  have hdot9 : 9 ≤ (rayDirInput 800 600 x y).dot (rayDirInput 800 600 x y) := by
    have hgz := dot_self_ge_z_sq (rayDirInput 800 600 x y)
    rw [hz] at hgz
    norm_num at hgz
    exact hgz
  have hdotpos : 0 < (rayDirInput 800 600 x y).dot (rayDirInput 800 600 x y) := by
    linarith
  have hmagr : ((ray.origin.add (ray.direction.mul d)).sub s.position).magnitude
      = s.radius := by
    unfold Vector3D.magnitude
    rw [Sphere.hit_dist_sq s ray d hunit hd]
    exact Real.sqrt_mul_self hr.le
  refine ⟨Vector3D.magnitude_ne_zero _ hdotpos, ?_, ?_, ?_, ?_, hmagr, ?_⟩
  · unfold Vector3D.magnitude
    exact Real.le_sqrt_of_sq_le (by nlinarith)
  · exact Vector3D.magnitude_normalize _ hdotpos
  · have hmem := hl
    simp only [referenceLights, List.mem_cons, List.mem_singleton,
      List.not_mem_nil, or_false] at hmem
    rcases hmem with rfl | rfl
    · exact Vector3D.magnitude_ne_zero _ (by norm_num [Vector3D.dot])
    · exact Vector3D.magnitude_ne_zero _ (by norm_num [Vector3D.dot])
  · have hmem := hs2
    simp only [referenceSpheres, List.mem_cons, List.mem_singleton,
      List.not_mem_nil, or_false] at hmem
    rcases hmem with rfl | rfl | rfl | rfl | rfl <;> norm_num
  · rw [hmagr]
    exact ne_of_gt hr

/-- Witness for C9: the unit ray `wRay` hits `wSphereB` at distance 2, and
the surface-normal input there has magnitude exactly the radius. -/
theorem reference_scene_normalize_safe_witness :
    wSphereB.intersects wRay = some 2 ∧
      ((wRay.origin.add (wRay.direction.mul 2)).sub wSphereB.position).magnitude =
        wSphereB.radius := by
  have h := wSphereB_hit
  have hu : wRay.direction.dot wRay.direction = 1 := by
    norm_num [wRay, Vector3D.dot]
  have hr : 0 < wSphereB.radius := by norm_num [wSphereB]
  exact ⟨h, (reference_scene_normalize_safe 0 0 ⟨⟨0, 0, -4⟩, 0.1⟩
    (List.mem_cons_self _ _) ⟨⟨0, 0, -5⟩, ⟨1, 0, 0⟩, 1⟩ (List.mem_cons_self _ _)
    wSphereB wRay 2 hu hr h).2.2.2.2.2.1⟩
